import Mathlib

set_option autoImplicit false

/-
Verification development for the X-Chat messaging backend.

The definitions below are a shallow embedding of the repository layer
(app/database/repositories/*.py) and its schemas
(app/database/schemas/init file).  Mongo ObjectIds are modelled as
natural numbers (every modelled id is a well-formed ObjectId, so the
string-format guards of the source are vacuous here), datetimes as
natural-number timestamps passed explicitly, each Mongo collection as a
list of documents in insertion order, Mongo find_one as List.find?, and
a Beanie document save as replacement of the documents carrying the
same id.
-/

namespace XChat

abbrev UserId := Nat
abbrev ChatId := Nat
abbrev MessageId := Nat
abbrev RequestId := Nat
abbrev Time := Nat

/-- ChatType enum from the schemas module. -/
inductive ChatType where
  | PRIVATE
  | GROUP
deriving Repr, DecidableEq

/-- MessageType enum from the schemas module. -/
inductive MessageType where
  | TEXT
  | IMAGE
  | VIDEO
  | AUDIO
  | DOCUMENT
  | VOICE_NOTE
  | LOCATION
  | SYSTEM
deriving Repr, DecidableEq

/-- FriendRequestStatus enum from the schemas module. -/
inductive FriendRequestStatus where
  | PENDING
  | ACCEPTED
  | REJECTED
deriving Repr, DecidableEq

/-- ChatParticipant schema: per-participant role and mute state. -/
structure ChatParticipant where
  user_id : UserId
  joined_at : Time
  is_admin : Bool := false
  is_muted : Bool := false
deriving Repr, DecidableEq

/-- Chat document schema (fields relevant to the repository operations). -/
structure Chat where
  id : ChatId
  type : ChatType
  name : Option String := none
  description : Option String := none
  participants : List ChatParticipant := []
  created_by : UserId
  created_at : Time
  updated_at : Time
deriving Repr, DecidableEq

/-- Chat.get_participant from the schemas module. -/
def Chat.getParticipant (c : Chat) (uid : UserId) : Option ChatParticipant :=
  c.participants.find? (fun p => p.user_id == uid)

/-- Chat.is_participant from the schemas module. -/
def Chat.isParticipantB (c : Chat) (uid : UserId) : Bool :=
  c.participants.any (fun p => p.user_id == uid)

/-- Chat.is_admin from the schemas module. -/
def Chat.isAdminB (c : Chat) (uid : UserId) : Bool :=
  match c.getParticipant uid with
  | some p => p.is_admin
  | none => false

/-- BaseRepository.get_by_id on the chats collection. -/
def getChatById (chats : List Chat) (cid : ChatId) : Option Chat :=
  chats.find? (fun c => c.id == cid)

/-- Beanie document save: every stored chat carrying the same id is replaced. -/
def saveChat (chats : List Chat) (c : Chat) : List Chat :=
  chats.map (fun x => if x.id == c.id then c else x)

/-- ChatRepository.get_private_chat: find_one on type PRIVATE, both ids
under a participants.user_id all-of filter, and participant size 2. -/
def get_private_chat (chats : List Chat) (u1 u2 : UserId) : Option Chat :=
  chats.find? (fun c =>
    c.type == ChatType.PRIVATE
      && (c.participants.map (fun p => p.user_id)).contains u1
      && (c.participants.map (fun p => p.user_id)).contains u2
      && c.participants.length == 2)

/-- Document built by the none branch of ChatRepository.create_private_chat:
a PRIVATE chat whose two participants are the two users in argument order
with default (non-admin, unmuted) participant state, created_by the first
argument. -/
def freshPrivateChat (u1 u2 : UserId) (newId : ChatId) (now : Time) : Chat :=
  { id := newId
    type := ChatType.PRIVATE
    participants :=
      [ { user_id := u1, joined_at := now }
      , { user_id := u2, joined_at := now } ]
    created_by := u1
    created_at := now
    updated_at := now }

/-- ChatRepository.create_private_chat.  The source returns the existing
chat when the lookup succeeds and otherwise inserts a fresh document;
the fresh document id and the utcnow timestamp are explicit arguments. -/
def create_private_chat (chats : List Chat) (u1 u2 : UserId)
    (newId : ChatId) (now : Time) : Chat × List Chat :=
  match get_private_chat chats u1 u2 with
  | some existing_chat => (existing_chat, chats)
  | none =>
      let c : Chat := freshPrivateChat u1 u2 newId now
      (c, chats ++ [c])

/-- Document built by ChatRepository.create_group_chat: a GROUP chat over
the final id list, in which a participant is admin exactly when its id
equals the creator id; the name is stored without any blank check. -/
def freshGroupChat (creator_id : UserId) (all_ids : List UserId)
    (name : String) (description : Option String)
    (newId : ChatId) (now : Time) : Chat :=
  { id := newId
    type := ChatType.GROUP
    name := some name
    description := description
    participants := all_ids.map (fun u =>
      ({ user_id := u, joined_at := now, is_admin := u == creator_id } : ChatParticipant))
    created_by := creator_id
    created_at := now
    updated_at := now }

/-- ChatRepository.create_group_chat continued: validate, extend with the
creator and insert. -/
def create_group_chat (chats : List Chat) (creator_id : UserId)
    (participant_ids : List UserId) (name : String) (description : Option String)
    (newId : ChatId) (now : Time) : Option (Chat × List Chat) :=
  let valid_participant_ids := participant_ids
  if valid_participant_ids.isEmpty then none
  else
    let all_ids :=
      if valid_participant_ids.contains creator_id then valid_participant_ids
      else valid_participant_ids ++ [creator_id]
    let c : Chat := freshGroupChat creator_id all_ids name description newId now
    some (c, chats ++ [c])

/-- First half of ChatRepository.add_participant, up to and including the
in-memory mutation: read the chat, check the group type, the admin right
of the caller and the absence of the user, and produce the document that
the subsequent save will write.  Splitting at the await boundary lets the
interleaving of two concurrent calls be stated faithfully. -/
def add_participant_read (chats : List Chat) (chat_id : ChatId)
    (user_id added_by : UserId) (now : Time) : Option Chat :=
  match getChatById chats chat_id with
  | none => none
  | some chat =>
      if chat.type != ChatType.GROUP then none
      else if !chat.isAdminB added_by then none
      else if chat.isParticipantB user_id then none
      else some { chat with
        participants := chat.participants ++ [{ user_id := user_id, joined_at := now }]
        updated_at := now }

/-- ChatRepository.add_participant: the read-modify phase followed by the
save. -/
def add_participant (chats : List Chat) (chat_id : ChatId)
    (user_id added_by : UserId) (now : Time) : Bool × List Chat :=
  match add_participant_read chats chat_id user_id added_by now with
  | none => (false, chats)
  | some c => (true, saveChat chats c)

/-! Generic list lemmas used throughout the development. -/

theorem list_find?_congr {α : Type} {p q : α → Bool} (h : ∀ x, p x = q x) :
    ∀ l : List α, l.find? p = l.find? q := by
  intro l
  induction l with
  | nil => rfl
  | cons a l ih =>
      simp only [List.find?, h a]
      cases q a <;> simp [ih]

theorem bool_and_swap (x y z w : Bool) :
    (((x && y) && z) && w) = (((x && z) && y) && w) := by
  cases x <;> cases y <;> cases z <;> cases w <;> rfl

theorem bool_and_dup (x y w : Bool) :
    (((x && y) && y) && w) = ((x && y) && w) := by
  cases x <;> cases y <;> cases w <;> rfl

/-- The private-chat lookup filter is symmetric in the two user ids. -/
theorem get_private_chat_comm (chats : List Chat) (u1 u2 : UserId) :
    get_private_chat chats u1 u2 = get_private_chat chats u2 u1 := by
  unfold get_private_chat
  exact list_find?_congr (fun c => bool_and_swap _ _ _ _) chats

/-- C1: createPrivateChat is idempotent and symmetric.  Once a private
chat between A and B exists, every call to create_private_chat in either
argument order returns that same existing chat and leaves the chat store
unchanged; on first creation the two users become non-admin participants
in argument order, the first argument is recorded as created_by, and all
later calls in either order return exactly the chat just created. -/
theorem create_private_chat_idempotent_symmetric
    (chats : List Chat) (A B : UserId) (newId : ChatId) (now : Time) :
    (∀ c0, get_private_chat chats A B = some c0 →
      create_private_chat chats A B newId now = (c0, chats)
        ∧ create_private_chat chats B A newId now = (c0, chats))
    ∧ (get_private_chat chats A B = none →
        (create_private_chat chats A B newId now).1.created_by = A
        ∧ (create_private_chat chats A B newId now).1.participants.map
            (fun p => p.user_id) = [A, B]
        ∧ (∀ p ∈ (create_private_chat chats A B newId now).1.participants,
            p.is_admin = false)
        ∧ (create_private_chat chats A B newId now).2
            = chats ++ [(create_private_chat chats A B newId now).1]
        ∧ ∀ (newId2 : ChatId) (now2 : Time),
            create_private_chat (create_private_chat chats A B newId now).2 A B newId2 now2
              = ((create_private_chat chats A B newId now).1,
                 (create_private_chat chats A B newId now).2)
            ∧ create_private_chat (create_private_chat chats A B newId now).2 B A newId2 now2
              = ((create_private_chat chats A B newId now).1,
                 (create_private_chat chats A B newId now).2)) := by
  constructor
  · intro c0 h
    have hBA : get_private_chat chats B A = some c0 := by
      rw [get_private_chat_comm]; exact h
    constructor
    · simp [create_private_chat, h]
    · simp [create_private_chat, hBA]
  · intro h
    have hred : create_private_chat chats A B newId now
        = (freshPrivateChat A B newId now, chats ++ [freshPrivateChat A B newId now]) := by
      simp [create_private_chat, h]
    rw [hred]
    refine ⟨rfl, by simp [freshPrivateChat], ?_, rfl, ?_⟩
    · intro p hp
      simp [freshPrivateChat] at hp
      rcases hp with h1 | h1 <;> rw [h1]
    · intro newId2 now2
      have hfound :
          get_private_chat (chats ++ [freshPrivateChat A B newId now]) A B
            = some (freshPrivateChat A B newId now) := by
        unfold get_private_chat at h ⊢
        rw [List.find?_append, h]
        simp [freshPrivateChat]
      constructor
      · simp [create_private_chat, hfound]
      · have hfound2 := hfound
        rw [get_private_chat_comm] at hfound2
        simp [create_private_chat, hfound2]

/-- Private chat between users 1 and 2 used to instantiate C1. -/
def chatOneTwo : Chat :=
  { id := 5, type := ChatType.PRIVATE,
    participants :=
      [ { user_id := 1, joined_at := 0 }
      , { user_id := 2, joined_at := 0 } ],
    created_by := 1, created_at := 0, updated_at := 0 }

/-- Witness for C1: with a stored private chat between users 1 and 2 a
repeated call returns it unchanged, and on an empty store the creator 1
is recorded as created_by. -/
theorem create_private_chat_idempotent_symmetric_witness :
    (create_private_chat [chatOneTwo] 1 2 9 4 = (chatOneTwo, [chatOneTwo])
      ∧ create_private_chat [chatOneTwo] 2 1 9 4 = (chatOneTwo, [chatOneTwo]))
    ∧ (create_private_chat [] 1 2 9 4).1.created_by = 1 :=
  ⟨(create_private_chat_idempotent_symmetric [chatOneTwo] 1 2 9 4).1 chatOneTwo (by decide),
   ((create_private_chat_idempotent_symmetric [] 1 2 9 4).2 (by decide)).1⟩

theorem list_map_user_id (creator : UserId) (now : Time) (l : List UserId) :
    (l.map (fun u =>
      ({ user_id := u, joined_at := now, is_admin := u == creator } : ChatParticipant))).map
        (fun p => p.user_id) = l := by
  induction l with
  | nil => rfl
  | cons a l ih => simp only [List.map_cons, ih]

/-- C10: degenerate pair.  With both arguments equal, the existing-chat
lookup degenerates to "any two-participant private chat containing A",
so create_private_chat A A returns the first such chat unchanged when
one exists (even a chat with a different partner), and otherwise inserts
a chat whose two participant entries are both A. -/
theorem create_private_chat_degenerate_pair
    (chats : List Chat) (A : UserId) (newId : ChatId) (now : Time) :
    (get_private_chat chats A A
      = chats.find? (fun c =>
          (c.type == ChatType.PRIVATE
            && (c.participants.map (fun p => p.user_id)).contains A)
            && c.participants.length == 2))
    ∧ (∀ c0, get_private_chat chats A A = some c0 →
        create_private_chat chats A A newId now = (c0, chats))
    ∧ (get_private_chat chats A A = none →
        create_private_chat chats A A newId now
          = (freshPrivateChat A A newId now, chats ++ [freshPrivateChat A A newId now])
        ∧ (freshPrivateChat A A newId now).participants.map (fun p => p.user_id)
          = [A, A]) := by
  refine ⟨?_, ?_, ?_⟩
  · unfold get_private_chat
    exact list_find?_congr (fun c => bool_and_dup _ _ _) chats
  · intro c0 h
    simp [create_private_chat, h]
  · intro h
    exact ⟨by simp [create_private_chat, h], by simp [freshPrivateChat]⟩

/-- Witness for C10: user 1 already shares a private chat with user 2,
and create_private_chat 1 1 returns that unrelated chat unchanged; on an
empty store it creates a chat whose participants are both 1. -/
theorem create_private_chat_degenerate_pair_witness :
    create_private_chat [chatOneTwo] 1 1 9 4 = (chatOneTwo, [chatOneTwo])
    ∧ (create_private_chat [] 1 1 9 4
        = (freshPrivateChat 1 1 9 4, [] ++ [freshPrivateChat 1 1 9 4])
      ∧ (freshPrivateChat 1 1 9 4).participants.map (fun p => p.user_id) = [1, 1]) :=
  ⟨(create_private_chat_degenerate_pair [chatOneTwo] 1 9 4).2.1 chatOneTwo (by decide),
   (create_private_chat_degenerate_pair [] 1 9 4).2.2 (by decide)⟩

/-- Counterexample for C4 as stated: the repository does not deduplicate
the given participant ids (the list [2, 2] yields two participant
entries for user 2), accepts a blank name, and fails on an empty given
list even though the creator would make the resulting set non-empty. -/
theorem create_group_chat_claim_counterexample :
    ((create_group_chat [] 1 [2, 2] "g" none 100 0).map
        (fun r => r.1.participants.map (fun p => p.user_id))) = some [2, 2, 1]
    ∧ (create_group_chat [] 1 [2] "" none 100 0).isSome = true
    ∧ create_group_chat [] 1 [] "g" none 100 0 = none := by
  refine ⟨?_, ?_, ?_⟩ <;> decide

/-- C4 amended: create_group_chat keeps the given participant ids in
order without deduplication, appends the creator when absent, marks a
participant admin exactly when its id is the creator id, stores the name
without a blank check, and fails precisely when the given id list is
empty. -/
theorem create_group_chat_spec (chats : List Chat) (creator : UserId)
    (pids : List UserId) (name : String) (desc : Option String)
    (newId : ChatId) (now : Time) :
    (pids = [] → create_group_chat chats creator pids name desc newId now = none)
    ∧ (pids ≠ [] →
        ∃ c, create_group_chat chats creator pids name desc newId now
            = some (c, chats ++ [c])
          ∧ c.participants.map (fun p => p.user_id)
              = (if pids.contains creator then pids else pids ++ [creator])
          ∧ (∀ p ∈ c.participants, p.is_admin = (p.user_id == creator))
          ∧ c.name = some name ∧ c.type = ChatType.GROUP
          ∧ c.created_by = creator) := by
  constructor
  · intro h
    simp [create_group_chat, h]
  · intro h
    have hne : pids.isEmpty = false := by
      cases pids with
      | nil => exact absurd rfl h
      | cons a l => rfl
    refine ⟨freshGroupChat creator
        (if pids.contains creator then pids else pids ++ [creator]) name desc newId now,
      ?_, ?_, ?_, rfl, rfl, rfl⟩
    · simp [create_group_chat, hne]
    · simp only [freshGroupChat]
      exact list_map_user_id creator now _
    · intro p hp
      simp [freshGroupChat] at hp
      obtain ⟨u, _, hu⟩ := hp
      rw [← hu]

/-- Witness for C4 amended: the empty list fails, and for creator 1 with
given ids [2, 2] the participants are [2, 2, 1] with only 1 an admin. -/
theorem create_group_chat_spec_witness :
    create_group_chat [] 1 [] "g" none 100 0 = none
    ∧ ∃ c, create_group_chat [] 1 [2, 2] "g" none 100 0 = some (c, [] ++ [c])
        ∧ c.participants.map (fun p => p.user_id)
            = (if List.contains [2, 2] 1 then [2, 2] else [2, 2] ++ [1])
        ∧ (∀ p ∈ c.participants, p.is_admin = (p.user_id == 1))
        ∧ c.name = some "g" ∧ c.type = ChatType.GROUP
        ∧ c.created_by = 1 :=
  ⟨(create_group_chat_spec [] 1 [] "g" none 100 0).1 rfl,
   (create_group_chat_spec [] 1 [2, 2] "g" none 100 0).2 (by decide)⟩

/-- Group chat with id 10 whose only participant is the admin user 1,
used to exhibit the add_participant lost update. -/
def groupChatTen : Chat :=
  { id := 10, type := ChatType.GROUP, name := some "g",
    participants := [ { user_id := 1, joined_at := 0, is_admin := true } ],
    created_by := 1, created_at := 0, updated_at := 0 }

/-- C9: the naive read-then-save pattern of add_participant loses an
update under interleaving.  Two calls adding users 2 and 3 each pass all
checks against the same snapshot; applying the two saves in order leaves
a participant list [1, 3] in which user 2 is missing, while the
sequential execution of the same two calls yields [1, 2, 3]. -/
theorem add_participant_lost_update :
    (add_participant_read [groupChatTen] 10 2 1 1).isSome = true
    ∧ (add_participant_read [groupChatTen] 10 3 1 1).isSome = true
    ∧ (((saveChat
          (saveChat [groupChatTen] ((add_participant_read [groupChatTen] 10 2 1 1).getD groupChatTen))
          ((add_participant_read [groupChatTen] 10 3 1 1).getD groupChatTen)).find?
            (fun c => c.id == 10)).map
          (fun c => c.participants.map (fun p => p.user_id))) = some [1, 3]
    ∧ (((add_participant (add_participant [groupChatTen] 10 2 1 1).2 10 3 1 1).2.find?
            (fun c => c.id == 10)).map
          (fun c => c.participants.map (fun p => p.user_id))) = some [1, 2, 3] := by
  refine ⟨?_, ?_, ?_, ?_⟩ <;> decide

/-- Seen-record entry of Message.seen_by: one user id with the time the
user saw the message. -/
structure SeenRecord where
  user_id : UserId
  seen_at : Time
deriving Repr, DecidableEq

/-- MessageMedia schema (file attachment payload). -/
structure MessageMedia where
  file_url : String
  file_name : String := ""
deriving Repr, DecidableEq

/-- Message document schema (fields relevant to the repository
operations). -/
structure Message where
  id : MessageId
  content : Option String := none
  message_type : MessageType := MessageType.TEXT
  media : Option MessageMedia := none
  chat_id : ChatId
  sender_id : UserId
  is_edited : Bool := false
  edited_at : Option Time := none
  original_content : Option String := none
  seen_by : List SeenRecord := []
  delivered_to : List UserId := []
  created_at : Time
  updated_at : Time
deriving Repr, DecidableEq

/-- BaseRepository.get_by_id on the messages collection. -/
def getMessageById (msgs : List Message) (mid : MessageId) : Option Message :=
  msgs.find? (fun m => m.id == mid)

/-- Beanie document save on the messages collection. -/
def saveMessage (msgs : List Message) (m : Message) : List Message :=
  msgs.map (fun x => if x.id == m.id then m else x)

/-- Document update performed by MessageRepository.mark_as_seen: drop any
prior seen record of the user and append a fresh one with the current
time. -/
def markedSeen (m : Message) (uid : UserId) (now : Time) : Message :=
  { m with
    seen_by := (m.seen_by.filter (fun s => s.user_id != uid))
      ++ [{ user_id := uid, seen_at := now }]
    updated_at := now }

/-- MessageRepository.mark_as_seen continued: find, update, save. -/
def mark_as_seen (msgs : List Message) (mid : MessageId) (uid : UserId)
    (now : Time) : Bool × List Message :=
  match getMessageById msgs mid with
  | none => (false, msgs)
  | some m => (true, saveMessage msgs (markedSeen m uid now))

/-- Predicate for the Mongo filter seen_by.user_id equal to the user:
some entry of seen_by belongs to the user. -/
def hasSeenEntry (uid : UserId) (m : Message) : Bool :=
  m.seen_by.any (fun s => s.user_id == uid)

/-- MessageRepository.get_unread_count: count the messages of the chat
whose sender differs from the user and whose seen_by holds no entry for
the user. -/
def get_unread_count (msgs : List Message) (cid : ChatId) (uid : UserId) : Nat :=
  (msgs.filter (fun m =>
    m.chat_id == cid && m.sender_id != uid && !hasSeenEntry uid m)).length

/-- Document update performed by MessageRepository.delete_message: the
content becomes the fixed tombstone string, the type SYSTEM, the media
null. -/
def tombstoned (m : Message) (now : Time) : Message :=
  { m with
    content := some "This message was deleted"
    message_type := MessageType.SYSTEM
    media := none
    updated_at := now }

/-- MessageRepository.delete_message continued: find, authorize, update,
save. -/
def delete_message (msgs : List Message) (mid : MessageId) (uid : UserId)
    (now : Time) : Bool × List Message :=
  match getMessageById msgs mid with
  | none => (false, msgs)
  | some m =>
      if m.sender_id != uid then (false, msgs)
      else (true, saveMessage msgs (tombstoned m now))

/-- Document update performed by MessageRepository.update_message_content:
store the original content on the first edit and replace the content;
the message type is left untouched. -/
def editedMessage (m : Message) (new_content : String) (now : Time) : Message :=
  let m1 := if !m.is_edited then { m with original_content := m.content } else m
  { m1 with
    content := some new_content
    is_edited := true
    edited_at := some now
    updated_at := now }

/-- MessageRepository.update_message_content continued: find, authorize,
update, save. -/
def update_message_content (msgs : List Message) (mid : MessageId)
    (new_content : String) (uid : UserId) (now : Time) :
    Option (Message × List Message) :=
  match getMessageById msgs mid with
  | none => none
  | some m =>
      if m.sender_id != uid then none
      else some (editedMessage m new_content now, saveMessage msgs (editedMessage m new_content now))

/-- Saving a document whose id was found keeps it retrievable: get_by_id
after the save returns exactly the saved document. -/
theorem getMessageById_save (msgs : List Message) (m : Message)
    (h : (getMessageById msgs m.id).isSome = true) :
    getMessageById (saveMessage msgs m) m.id = some m := by
  induction msgs with
  | nil => simp [getMessageById] at h
  | cons a l ih =>
      by_cases ha : (a.id == m.id) = true
      · have hs : saveMessage (a :: l) m
            = m :: l.map (fun x => if x.id == m.id then m else x) := by
          simp only [saveMessage, List.map_cons, if_pos ha]
        rw [hs]
        unfold getMessageById
        exact List.find?_cons_of_pos _ (by simp)
      · have hs : saveMessage (a :: l) m = a :: saveMessage l m := by
          simp only [saveMessage, List.map_cons, if_neg ha]
        have h2 : (getMessageById l m.id).isSome = true := by
          unfold getMessageById at h ⊢
          rw [List.find?_cons] at h
          simpa [ha] using h
        rw [hs]
        unfold getMessageById at ih ⊢
        rw [List.find?_cons]
        simpa [ha] using ih h2

/-- The id of the mark_as_seen update equals the id of the stored
message. -/
theorem markedSeen_id (m : Message) (uid : UserId) (now : Time) :
    (markedSeen m uid now).id = m.id := rfl

/-- Map of ids is untouched by a save (the replacing document carries the
replaced id). -/
theorem saveMessage_map_id (msgs : List Message) (m : Message) :
    (saveMessage msgs m).map (fun x => x.id) = msgs.map (fun x => x.id) := by
  induction msgs with
  | nil => rfl
  | cons a l ih =>
      simp only [saveMessage, List.map_cons] at *
      rw [ih]
      by_cases ha : (a.id == m.id) = true
      · rw [if_pos ha]
        rw [beq_iff_eq.mp ha]
      · rw [if_neg ha]

/-- C3: mark_as_seen is idempotent.  Whatever the prior state of the
store (in particular after any earlier sequence of mark_as_seen calls),
one call for a stored message leaves exactly one seen record for the
user on that message, and that record carries the time of this call. -/
theorem mark_as_seen_idempotent (msgs : List Message) (mid : MessageId)
    (uid : UserId) (now : Time)
    (h : (getMessageById msgs mid).isSome = true) :
    ∃ m2, getMessageById (mark_as_seen msgs mid uid now).2 mid = some m2
      ∧ m2.seen_by.countP (fun s => s.user_id == uid) = 1
      ∧ m2.seen_by.filter (fun s => s.user_id == uid)
          = [{ user_id := uid, seen_at := now }] := by
  obtain ⟨m, hm⟩ : ∃ m, getMessageById msgs mid = some m :=
    Option.isSome_iff_exists.mp h
  have hid : m.id = mid := by
    have := List.find?_some hm
    simpa using this
  refine ⟨markedSeen m uid now, ?_, ?_, ?_⟩
  · have hred : mark_as_seen msgs mid uid now
        = (true, saveMessage msgs (markedSeen m uid now)) := by
      simp [mark_as_seen, hm]
    rw [hred]
    have hsave := getMessageById_save msgs (markedSeen m uid now)
      (by rw [markedSeen_id, hid]; exact h)
    rwa [markedSeen_id, hid] at hsave
  · show ((m.seen_by.filter (fun s => s.user_id != uid))
        ++ [({ user_id := uid, seen_at := now } : SeenRecord)]).countP
          (fun s => s.user_id == uid) = 1
    rw [List.countP_append]
    have hz : (m.seen_by.filter (fun s => s.user_id != uid)).countP
        (fun s => s.user_id == uid) = 0 := by
      rw [List.countP_eq_zero]
      intro s hs
      have := (List.mem_filter.mp hs).2
      simpa using this
    rw [hz]
    simp [List.countP_cons]
  · show ((m.seen_by.filter (fun s => s.user_id != uid))
        ++ [({ user_id := uid, seen_at := now } : SeenRecord)]).filter
          (fun s => s.user_id == uid)
        = [({ user_id := uid, seen_at := now } : SeenRecord)]
    rw [List.filter_append]
    have hz : (m.seen_by.filter (fun s => s.user_id != uid)).filter
        (fun s => s.user_id == uid) = [] := by
      rw [List.filter_eq_nil_iff]
      intro s hs
      have := (List.mem_filter.mp hs).2
      simpa using this
    rw [hz]
    simp

/-- Message with id 1 from sender 7 in chat 3 used to instantiate the
message-level claims. -/
def msgSeven : Message :=
  { id := 1, content := some "hi", chat_id := 3, sender_id := 7,
    created_at := 0, updated_at := 0 }

/-- Witness for C3: two consecutive mark_as_seen calls by user 4 on the
stored message leave exactly one seen record, carrying the time of the
second call. -/
theorem mark_as_seen_idempotent_witness :
    ∃ m2, getMessageById
        (mark_as_seen (mark_as_seen [msgSeven] 1 4 5).2 1 4 6).2 1 = some m2
      ∧ m2.seen_by.countP (fun s => s.user_id == 4) = 1
      ∧ m2.seen_by.filter (fun s => s.user_id == 4)
          = [{ user_id := 4, seen_at := 6 }] :=
  mark_as_seen_idempotent (mark_as_seen [msgSeven] 1 4 5).2 1 4 6 (by decide)

/-- Counterexample for the irreversibility part of C6: the sender soft
deletes the stored message (content becomes the tombstone) and then
edits it back to the original text through update_message_content, so a
later operation does restore the original content. -/
theorem soft_delete_not_irreversible :
    ((getMessageById (delete_message [msgSeven] 1 7 5).2 1).map (fun m => m.content))
      = some (some "This message was deleted")
    ∧ ((update_message_content (delete_message [msgSeven] 1 7 5).2 1 "hi" 7 6).map
        (fun r => r.1.content)) = some (some "hi") := by
  refine ⟨?_, ?_⟩ <;> decide

/-- The message type survives an edit unchanged in both branches of the
first-edit bookkeeping. -/
theorem editedMessage_type (m : Message) (nc : String) (now : Time) :
    (editedMessage m nc now).message_type = m.message_type := by
  unfold editedMessage
  by_cases h : m.is_edited <;> simp [h]

/-- C6 amended: delete_message fails unless the caller is the sender; on
success it replaces the stored document by its tombstoned copy - content
the fixed tombstone string, type SYSTEM, media null - keeping id,
chat_id, sender and created_at, and keeping the id sequence and length
of the store (the message is not removed and its sort position is
unchanged).  The SYSTEM type is never undone by an edit, but deletion is
not fully irreversible: the sender may still edit the message, setting
its content to any string, including the original text. -/
theorem delete_message_spec (msgs : List Message) (mid : MessageId)
    (uid : UserId) (now now2 : Time) (nc : String) :
    (∀ m, getMessageById msgs mid = some m → m.sender_id ≠ uid →
      delete_message msgs mid uid now = (false, msgs))
    ∧ (∀ m, getMessageById msgs mid = some m → m.sender_id = uid →
      delete_message msgs mid uid now = (true, saveMessage msgs (tombstoned m now))
        ∧ (tombstoned m now).content = some "This message was deleted"
        ∧ (tombstoned m now).message_type = MessageType.SYSTEM
        ∧ (tombstoned m now).media = none
        ∧ (tombstoned m now).id = m.id
        ∧ (tombstoned m now).chat_id = m.chat_id
        ∧ (tombstoned m now).sender_id = m.sender_id
        ∧ (tombstoned m now).created_at = m.created_at
        ∧ (saveMessage msgs (tombstoned m now)).map (fun x => x.id)
            = msgs.map (fun x => x.id)
        ∧ (saveMessage msgs (tombstoned m now)).length = msgs.length)
    ∧ (∀ m m3 msgs3, getMessageById msgs mid = some m →
        update_message_content msgs mid nc uid now2 = some (m3, msgs3) →
        m3.message_type = m.message_type ∧ m3.content = some nc) := by
  refine ⟨?_, ?_, ?_⟩
  · intro m hm hsender
    simp [delete_message, hm, hsender]
  · intro m hm hsender
    refine ⟨?_, rfl, rfl, rfl, rfl, rfl, rfl, rfl, ?_, ?_⟩
    · simp [delete_message, hm, hsender]
    · exact saveMessage_map_id msgs (tombstoned m now)
    · simp [saveMessage]
  · intro m m3 msgs3 hm hupd
    by_cases hs : (m.sender_id != uid) = true
    · simp [update_message_content, hm, hs] at hupd
    · simp only [update_message_content, hm, hs, if_neg, Bool.false_eq_true,
        if_false, Option.some.injEq, Prod.mk.injEq] at hupd
      obtain ⟨hm3, _⟩ := hupd
      rw [← hm3]
      exact ⟨editedMessage_type m nc now2, rfl⟩

/-- Witness for C6 amended: user 8 is not the sender of the stored
message and the delete fails; the sender 7 deletes it successfully with
the tombstone fields, and a subsequent edit keeps the SYSTEM type while
setting the requested content. -/
theorem delete_message_spec_witness :
    delete_message [msgSeven] 1 8 5 = (false, [msgSeven])
    ∧ delete_message [msgSeven] 1 7 5
        = (true, saveMessage [msgSeven] (tombstoned msgSeven 5))
    ∧ (∀ m3 msgs3,
        update_message_content (delete_message [msgSeven] 1 7 5).2 1 "hi" 7 6
          = some (m3, msgs3) →
        m3.message_type = (tombstoned msgSeven 5).message_type
          ∧ m3.content = some "hi") :=
  ⟨(delete_message_spec [msgSeven] 1 8 5 6 "hi").1 msgSeven (by decide) (by decide),
   ((delete_message_spec [msgSeven] 1 7 5 6 "hi").2.1 msgSeven (by decide) (by decide)).1,
   fun m3 msgs3 h =>
     (delete_message_spec (delete_message [msgSeven] 1 7 5).2 1 7 5 6 "hi").2.2
       (tombstoned msgSeven 5) m3 msgs3 (by decide) h⟩

/-- Marking every message of a list of ids: fold of mark_as_seen over the
ids, keeping only the resulting store. -/
def markAllSeen (msgs : List Message) (mids : List MessageId)
    (uid : UserId) (now : Time) : List Message :=
  mids.foldl (fun db mid => (mark_as_seen db mid uid now).2) msgs

/-- Pointwise form of one mark_as_seen pass over a store with distinct
ids: the message carrying the id is replaced by its markedSeen copy. -/
def markOne (mid : MessageId) (uid : UserId) (now : Time) (x : Message) : Message :=
  if x.id == mid then markedSeen x uid now else x

theorem markOne_id (mid : MessageId) (uid : UserId) (now : Time) (x : Message) :
    (markOne mid uid now x).id = x.id := by
  unfold markOne
  by_cases h : (x.id == mid) = true <;> simp [h, markedSeen]

theorem markOne_chat_id (mid : MessageId) (uid : UserId) (now : Time) (x : Message) :
    (markOne mid uid now x).chat_id = x.chat_id := by
  unfold markOne
  by_cases h : (x.id == mid) = true <;> simp [h, markedSeen]

theorem markOne_sender_id (mid : MessageId) (uid : UserId) (now : Time) (x : Message) :
    (markOne mid uid now x).sender_id = x.sender_id := by
  unfold markOne
  by_cases h : (x.id == mid) = true <;> simp [h, markedSeen]

theorem hasSeenEntry_markedSeen (uid : UserId) (now : Time) (x : Message) :
    hasSeenEntry uid (markedSeen x uid now) = true := by
  simp [hasSeenEntry, markedSeen]

theorem hasSeenEntry_markOne_of (mid : MessageId) (uid : UserId) (now : Time)
    (x : Message) (h : hasSeenEntry uid x = true) :
    hasSeenEntry uid (markOne mid uid now x) = true := by
  unfold markOne
  by_cases hx : (x.id == mid) = true
  · simp [hx, hasSeenEntry_markedSeen]
  · simpa [hx] using h

theorem hasSeenEntry_markOne_self (mid : MessageId) (uid : UserId) (now : Time)
    (x : Message) (h : x.id = mid) :
    hasSeenEntry uid (markOne mid uid now x) = true := by
  unfold markOne
  simp [h, hasSeenEntry_markedSeen]

theorem list_map_congr_mem {α β : Type} {f g : α → β} :
    ∀ {l : List α}, (∀ x ∈ l, f x = g x) → l.map f = l.map g
  | [], _ => rfl
  | a :: l, h => by
      simp only [List.map_cons]
      rw [h a (List.mem_cons_self a l), list_map_congr_mem (fun x hx => h x (List.mem_cons_of_mem a hx))]

theorem list_map_id_mem {α : Type} {f : α → α} :
    ∀ {l : List α}, (∀ x ∈ l, f x = x) → l.map f = l
  | [], _ => rfl
  | a :: l, h => by
      simp only [List.map_cons]
      rw [h a (List.mem_cons_self a l),
        list_map_id_mem (fun x hx => h x (List.mem_cons_of_mem a hx))]

/-- Under distinct ids one mark_as_seen call equals the pointwise markOne
map over the store. -/
theorem mark_as_seen_eq_map (msgs : List Message) (mid : MessageId)
    (uid : UserId) (now : Time)
    (hnd : (msgs.map (fun m => m.id)).Nodup) :
    (mark_as_seen msgs mid uid now).2 = msgs.map (markOne mid uid now) := by
  cases hfind : getMessageById msgs mid with
  | none =>
      have hall : ∀ x ∈ msgs, ¬((fun m => m.id == mid) x = true) := by
        unfold getMessageById at hfind
        exact List.find?_eq_none.mp hfind
      have : msgs.map (markOne mid uid now) = msgs := by
        apply list_map_id_mem
        intro x hx
        unfold markOne
        rw [if_neg (hall x hx)]
      rw [this]
      simp [mark_as_seen, hfind]
  | some m =>
      have hmmem : m ∈ msgs := List.mem_of_find?_eq_some hfind
      have hmid : m.id = mid := by
        have := List.find?_some hfind
        simpa using this
      have hred : (mark_as_seen msgs mid uid now).2
          = saveMessage msgs (markedSeen m uid now) := by
        simp [mark_as_seen, hfind]
      rw [hred]
      unfold saveMessage
      apply list_map_congr_mem
      intro x hx
      rw [markedSeen_id]
      by_cases hxid : (x.id == m.id) = true
      · have hxm : x = m :=
          List.inj_on_of_nodup_map hnd hx hmmem (beq_iff_eq.mp hxid)
        subst hxm
        simp [markOne, hmid]
      · unfold markOne
        rw [hmid] at hxid ⊢
        rw [if_neg hxid, if_neg hxid]

/-- markOne keeps the id sequence of the store. -/
theorem map_id_markOne (msgs : List Message) (mid : MessageId)
    (uid : UserId) (now : Time) :
    (msgs.map (markOne mid uid now)).map (fun m => m.id)
      = msgs.map (fun m => m.id) := by
  rw [List.map_map]
  apply list_map_congr_mem
  intro x _
  exact markOne_id mid uid now x

/-- Every message surviving a markAllSeen fold descends from a stored
message with the same id, chat and sender, and is seen by the user as
soon as its id was in the marked list or it was already seen. -/
theorem markAllSeen_spec (uid : UserId) (now : Time) (mids : List MessageId) :
    ∀ (msgs : List Message), (msgs.map (fun m => m.id)).Nodup →
    ∀ y ∈ markAllSeen msgs mids uid now, ∃ x ∈ msgs,
      y.id = x.id ∧ y.chat_id = x.chat_id ∧ y.sender_id = x.sender_id
      ∧ ((x.id ∈ mids ∨ hasSeenEntry uid x = true) → hasSeenEntry uid y = true) := by
  induction mids with
  | nil =>
      intro msgs _ y hy
      refine ⟨y, hy, rfl, rfl, rfl, ?_⟩
      rintro (h | h)
      · exact absurd h (List.not_mem_nil _)
      · exact h
  | cons mid rest ih =>
      intro msgs hnd y hy
      have hstep : markAllSeen msgs (mid :: rest) uid now
          = markAllSeen (msgs.map (markOne mid uid now)) rest uid now := by
        unfold markAllSeen
        rw [List.foldl_cons, mark_as_seen_eq_map msgs mid uid now hnd]
      rw [hstep] at hy
      have hnd2 : ((msgs.map (markOne mid uid now)).map (fun m => m.id)).Nodup := by
        rw [map_id_markOne]
        exact hnd
      obtain ⟨x2, hx2mem, hyid, hych, hysend, hyseen⟩ := ih _ hnd2 y hy
      obtain ⟨x, hxmem, hxeq⟩ := List.mem_map.mp hx2mem
      refine ⟨x, hxmem, ?_, ?_, ?_, ?_⟩
      · rw [hyid, ← hxeq, markOne_id]
      · rw [hych, ← hxeq, markOne_chat_id]
      · rw [hysend, ← hxeq, markOne_sender_id]
      · rintro (hmem | hseen)
        · rcases List.mem_cons.mp hmem with heq | hmem2
          · exact hyseen (Or.inr (by rw [← hxeq]; exact hasSeenEntry_markOne_self mid uid now x heq))
          · exact hyseen (Or.inl (by rw [← hxeq, markOne_id]; exact hmem2))
        · exact hyseen (Or.inr (by rw [← hxeq]; exact hasSeenEntry_markOne_of mid uid now x hseen))

/-- C2: get_unread_count is the badge count consistent with mark_as_seen.
For a chat in which every message was sent by another user and carries
no seen entry for the user, the count equals the number of messages of
the chat; and after mark_as_seen by the user on every message of the
chat sent by others (over a store with distinct message ids) the count
is zero. -/
theorem unread_count_consistency (msgs : List Message) (cid : ChatId)
    (uid : UserId) (now : Time) :
    ((∀ m ∈ msgs, m.chat_id = cid →
        m.sender_id ≠ uid ∧ ∀ s ∈ m.seen_by, s.user_id ≠ uid) →
      get_unread_count msgs cid uid
        = (msgs.filter (fun m => m.chat_id == cid)).length)
    ∧ ((msgs.map (fun m => m.id)).Nodup →
      get_unread_count
        (markAllSeen msgs
          ((msgs.filter (fun m => m.chat_id == cid && m.sender_id != uid)).map
            (fun m => m.id)) uid now)
        cid uid = 0) := by
  constructor
  · intro hall
    unfold get_unread_count
    congr 1
    apply List.filter_congr
    intro m hm
    by_cases hc : m.chat_id = cid
    · obtain ⟨h1, h2⟩ := hall m hm hc
      have hseen : hasSeenEntry uid m = false := by
        unfold hasSeenEntry
        rw [List.any_eq_false]
        intro s hs
        simpa using h2 s hs
      simp [hc, h1, hseen]
    · have hcf : (m.chat_id == cid) = false := by simpa using hc
      rw [hcf]
      simp
  · intro hnd
    unfold get_unread_count
    rw [List.length_eq_zero, List.filter_eq_nil_iff]
    intro y hy hcontra
    obtain ⟨x, hxmem, hyid, hych, hysend, hyseen⟩ :=
      markAllSeen_spec uid now
        ((msgs.filter (fun m => m.chat_id == cid && m.sender_id != uid)).map
          (fun m => m.id)) msgs hnd y hy
    simp only [Bool.and_eq_true, Bool.not_eq_true'] at hcontra
    obtain ⟨⟨hcy, hsy⟩, hseeny⟩ := hcontra
    have hxid_mem : x.id ∈
        (msgs.filter (fun m => m.chat_id == cid && m.sender_id != uid)).map
          (fun m => m.id) := by
      apply List.mem_map_of_mem
      apply List.mem_filter.mpr
      refine ⟨hxmem, ?_⟩
      rw [← hych, ← hysend, Bool.and_eq_true]
      exact ⟨hcy, hsy⟩
    have hst := hyseen (Or.inl hxid_mem)
    rw [hst] at hseeny
    exact Bool.noConfusion hseeny

/-- Two messages of chat 3 from sender 7 used to instantiate C2. -/
def msgsChatThree : List Message :=
  [ { id := 1, content := some "a", chat_id := 3, sender_id := 7,
      created_at := 0, updated_at := 0 }
  , { id := 2, content := some "b", chat_id := 3, sender_id := 7,
      created_at := 1, updated_at := 1 } ]

/-- Witness for C2: user 4 has 2 unread messages before marking, 0 after
marking both. -/
theorem unread_count_consistency_witness :
    get_unread_count msgsChatThree 3 4
      = (msgsChatThree.filter (fun m => m.chat_id == 3)).length
    ∧ get_unread_count
        (markAllSeen msgsChatThree
          ((msgsChatThree.filter (fun m => m.chat_id == 3 && m.sender_id != 4)).map
            (fun m => m.id)) 4 5) 3 4 = 0 :=
  ⟨(unread_count_consistency msgsChatThree 3 4 5).1 (by decide),
   (unread_count_consistency msgsChatThree 3 4 5).2 (by decide)⟩

/-- FriendRequest document schema. -/
structure FriendRequest where
  id : RequestId
  sender_id : UserId
  receiver_id : UserId
  status : FriendRequestStatus := FriendRequestStatus.PENDING
  message : Option String := none
  created_at : Time
  updated_at : Time
  responded_at : Option Time := none
deriving Repr, DecidableEq

/-- BaseRepository.get_by_id on the friend_requests collection. -/
def getRequestById (reqs : List FriendRequest) (rid : RequestId) :
    Option FriendRequest :=
  reqs.find? (fun q => q.id == rid)

/-- Beanie document save on the friend_requests collection. -/
def saveRequest (reqs : List FriendRequest) (q : FriendRequest) :
    List FriendRequest :=
  reqs.map (fun x => if x.id == q.id then q else x)

/-- FriendRequestRepository.get_existing_request: find_one over both
directions of the pair with status different from REJECTED. -/
def get_existing_request (reqs : List FriendRequest) (s r : UserId) :
    Option FriendRequest :=
  reqs.find? (fun q =>
    ((q.sender_id == s && q.receiver_id == r)
      || (q.sender_id == r && q.receiver_id == s))
      && q.status != FriendRequestStatus.REJECTED)

/-- Document built by FriendRequestRepository.create_friend_request: a
PENDING request from the sender to the receiver. -/
def freshRequest (s r : UserId) (msg : Option String) (newId : RequestId)
    (now : Time) : FriendRequest :=
  { id := newId, sender_id := s, receiver_id := r,
    status := FriendRequestStatus.PENDING, message := msg,
    created_at := now, updated_at := now }

/-- FriendRequestRepository.create_friend_request: fail when a
non-rejected request exists in either direction, else insert a fresh
PENDING request. -/
def create_friend_request (reqs : List FriendRequest) (s r : UserId)
    (msg : Option String) (newId : RequestId) (now : Time) :
    Option (FriendRequest × List FriendRequest) :=
  match get_existing_request reqs s r with
  | some _ => none
  | none =>
      let q := freshRequest s r msg newId now
      some (q, reqs ++ [q])

/-- FriendRequestRepository.reject_friend_request: receiver-only,
PENDING-only transition to REJECTED. -/
def reject_friend_request (reqs : List FriendRequest) (rid : RequestId)
    (uid : UserId) (now : Time) : Option (FriendRequest × List FriendRequest) :=
  match getRequestById reqs rid with
  | none => none
  | some q =>
      if q.receiver_id != uid then none
      else if q.status != FriendRequestStatus.PENDING then none
      else
        let q2 := { q with
          status := FriendRequestStatus.REJECTED
          responded_at := some now
          updated_at := now }
        some (q2, saveRequest reqs q2)

/-- Filter of the exclusivity invariant: a request between the unordered
pair in either direction whose status is not REJECTED. -/
def nonRejectedBetween (A B : UserId) (q : FriendRequest) : Bool :=
  ((q.sender_id == A && q.receiver_id == B)
    || (q.sender_id == B && q.receiver_id == A))
    && q.status != FriendRequestStatus.REJECTED

/-- The existing-request lookup is the first request satisfying
nonRejectedBetween. -/
theorem get_existing_request_eq_find (reqs : List FriendRequest) (A B : UserId) :
    get_existing_request reqs A B = reqs.find? (nonRejectedBetween A B) := rfl

theorem bool_or_comm_and (a b c d e : Bool) :
    (((a && b) || (c && d)) && e) = (((c && d) || (a && b)) && e) := by
  cases a <;> cases b <;> cases c <;> cases d <;> cases e <;> rfl

/-- The existing-request lookup is symmetric in the pair. -/
theorem get_existing_request_comm (reqs : List FriendRequest) (A B : UserId) :
    get_existing_request reqs A B = get_existing_request reqs B A := by
  unfold get_existing_request
  exact list_find?_congr (fun q => bool_or_comm_and _ _ _ _ _) reqs

/-- C5: friend-request exclusivity.  While a non-rejected request between
the pair exists, create_friend_request fails in both directions; when
every stored request between the pair is rejected, a new request
succeeds as a PENDING request, exactly one non-rejected request then
exists between the pair, and both directions fail again; a successful
reject_friend_request puts its request into the terminal REJECTED
status. -/
theorem friend_request_exclusivity (reqs : List FriendRequest) (A B : UserId)
    (msg msg2 : Option String) (newId newId2 : RequestId) (now now2 : Time) :
    ((∃ q ∈ reqs, nonRejectedBetween A B q = true) →
      create_friend_request reqs A B msg newId now = none
        ∧ create_friend_request reqs B A msg newId now = none)
    ∧ ((∀ q ∈ reqs, nonRejectedBetween A B q = false) →
      create_friend_request reqs A B msg newId now
          = some (freshRequest A B msg newId now,
              reqs ++ [freshRequest A B msg newId now])
        ∧ (freshRequest A B msg newId now).status = FriendRequestStatus.PENDING
        ∧ (reqs ++ [freshRequest A B msg newId now]).countP
            (nonRejectedBetween A B) = 1
        ∧ create_friend_request (reqs ++ [freshRequest A B msg newId now])
            A B msg2 newId2 now2 = none
        ∧ create_friend_request (reqs ++ [freshRequest A B msg newId now])
            B A msg2 newId2 now2 = none)
    ∧ (∀ rid u q2 reqs2, reject_friend_request reqs rid u now = some (q2, reqs2) →
        q2.status = FriendRequestStatus.REJECTED) := by
  refine ⟨?_, ?_, ?_⟩
  · rintro ⟨q, hq, hnq⟩
    have hsome : (get_existing_request reqs A B).isSome = true := by
      rw [get_existing_request_eq_find]
      exact List.find?_isSome.mpr ⟨q, hq, hnq⟩
    obtain ⟨q0, hq0⟩ := Option.isSome_iff_exists.mp hsome
    have hq0BA : get_existing_request reqs B A = some q0 := by
      rw [get_existing_request_comm reqs B A]
      exact hq0
    exact ⟨by simp [create_friend_request, hq0], by simp [create_friend_request, hq0BA]⟩
  · intro hall
    have hnone : get_existing_request reqs A B = none := by
      rw [get_existing_request_eq_find, List.find?_eq_none]
      intro x hx
      rw [hall x hx]
      simp
    have hfreshTrue : nonRejectedBetween A B (freshRequest A B msg newId now) = true := by
      simp [nonRejectedBetween, freshRequest]
    have hex : get_existing_request (reqs ++ [freshRequest A B msg newId now]) A B
        = some (freshRequest A B msg newId now) := by
      rw [get_existing_request_eq_find, List.find?_append]
      rw [get_existing_request_eq_find] at hnone
      rw [hnone]
      simp [hfreshTrue]
    have hexBA : get_existing_request (reqs ++ [freshRequest A B msg newId now]) B A
        = some (freshRequest A B msg newId now) := by
      rw [get_existing_request_comm _ B A]
      exact hex
    refine ⟨by simp [create_friend_request, hnone], rfl, ?_, ?_, ?_⟩
    · rw [List.countP_append]
      have h0 : reqs.countP (nonRejectedBetween A B) = 0 :=
        List.countP_eq_zero.mpr (fun q hq => by rw [hall q hq]; simp)
      rw [h0]
      simp [List.countP_cons, hfreshTrue]
    · simp [create_friend_request, hex]
    · simp [create_friend_request, hexBA]
  · intro rid u q2 reqs2 h
    unfold reject_friend_request at h
    cases hfind : getRequestById reqs rid with
    | none => rw [hfind] at h; exact absurd h (by simp)
    | some q =>
        rw [hfind] at h
        by_cases h1 : (q.receiver_id != u) = true
        · simp [h1] at h
        · by_cases h2 : (q.status != FriendRequestStatus.PENDING) = true
          · simp [h1, h2] at h
          · simp only [h1, h2, Bool.false_eq_true, if_false, Option.some.injEq,
              Prod.mk.injEq] at h
            obtain ⟨hq2, _⟩ := h
            rw [← hq2]

/-- Pending friend request with id 11 from user 1 to user 2 used to
instantiate C5. -/
def pendingOneTwo : FriendRequest :=
  { id := 11, sender_id := 1, receiver_id := 2, created_at := 0, updated_at := 0 }

/-- Store left after the receiver 2 rejected the stored pending request. -/
def rejectedStore : List FriendRequest :=
  ((reject_friend_request [pendingOneTwo] 11 2 4).map (fun r => r.2)).getD []

/-- Witness for C5: with the pending request stored, both directions
fail; after the receiver rejects it, a new request from user 2 succeeds;
a successful rejection carries the REJECTED status. -/
theorem friend_request_exclusivity_witness :
    (create_friend_request [pendingOneTwo] 1 2 none 12 3 = none
      ∧ create_friend_request [pendingOneTwo] 2 1 none 12 3 = none)
    ∧ (create_friend_request rejectedStore 2 1 none 12 5
        = some (freshRequest 2 1 none 12 5,
            rejectedStore ++ [freshRequest 2 1 none 12 5]))
    ∧ (∀ q2 reqs2, reject_friend_request [pendingOneTwo] 11 2 4 = some (q2, reqs2) →
        q2.status = FriendRequestStatus.REJECTED) :=
  ⟨(friend_request_exclusivity [pendingOneTwo] 1 2 none none 12 12 3 3).1
      ⟨pendingOneTwo, by decide, by decide⟩,
   ((friend_request_exclusivity rejectedStore
        2 1 none none 12 12 5 5).2.1 (by decide)).1,
   fun q2 reqs2 h =>
     (friend_request_exclusivity [pendingOneTwo] 1 2 none none 12 12 4 4).2.2
       11 2 q2 reqs2 h⟩

/-- User document schema (fields relevant to the friend and block
operations). -/
structure User where
  id : UserId
  friends : List UserId := []
  blocked_users : List UserId := []
  updated_at : Time
deriving Repr, DecidableEq

/-- BaseRepository.get_by_id on the users collection. -/
def getUserById (users : List User) (uid : UserId) : Option User :=
  users.find? (fun u => u.id == uid)

/-- Beanie document save on the users collection. -/
def saveUser (users : List User) (u : User) : List User :=
  users.map (fun x => if x.id == u.id then u else x)

/-- Document update performed by UserRepository.add_friend: append the
friend id; no self-check anywhere in the operation. -/
def friendAdded (u : User) (fid : UserId) (now : Time) : User :=
  { u with
    friends := u.friends ++ [fid]
    updated_at := now }

/-- UserRepository.add_friend continued: find, update, save. -/
def add_friend (users : List User) (uid fid : UserId) (now : Time) :
    Bool × List User :=
  match getUserById users uid with
  | none => (false, users)
  | some u =>
      if u.friends.contains fid then (true, users)
      else (true, saveUser users (friendAdded u fid now))

/-- Document update performed by UserRepository.block_user: append to
blocked_users and drop the first occurrence from friends (the Python
list remove); no self-check anywhere in the operation. -/
def blockApplied (u : User) (bid : UserId) (now : Time) : User :=
  { u with
    blocked_users := u.blocked_users ++ [bid]
    friends := if u.friends.contains bid then u.friends.erase bid else u.friends
    updated_at := now }

/-- UserRepository.block_user continued: find, update, save. -/
def block_user (users : List User) (uid bid : UserId) (now : Time) :
    Bool × List User :=
  match getUserById users uid with
  | none => (false, users)
  | some u =>
      if u.blocked_users.contains bid then (true, users)
      else (true, saveUser users (blockApplied u bid now))

/-- Document update performed by FriendRequestRepository's accept path:
the ACCEPTED transition with response bookkeeping. -/
def acceptedRequest (q : FriendRequest) (now : Time) : FriendRequest :=
  { q with
    status := FriendRequestStatus.ACCEPTED
    responded_at := some now
    updated_at := now }

/-- FriendRequestRepository.accept_friend_request: receiver-only,
PENDING-only transition to ACCEPTED followed by the two add_friend
calls. -/
def accept_friend_request (reqs : List FriendRequest) (users : List User)
    (rid : RequestId) (uid : UserId) (now : Time) :
    Option (FriendRequest × List FriendRequest × List User) :=
  match getRequestById reqs rid with
  | none => none
  | some q =>
      if q.receiver_id != uid then none
      else if q.status != FriendRequestStatus.PENDING then none
      else
        let q2 := acceptedRequest q now
        let reqs2 := saveRequest reqs q2
        let users1 := (add_friend users q.sender_id q.receiver_id now).2
        let users2 := (add_friend users1 q.receiver_id q.sender_id now).2
        some (q2, reqs2, users2)

/-- Friend and block operations of C7, with fresh-id and timestamp
payloads. -/
inductive FriendOp where
  | sendRequest (s r : UserId) (msg : Option String) (newId : RequestId) (now : Time)
  | acceptRequest (rid : RequestId) (uid : UserId) (now : Time)
  | addFriend (u f : UserId) (now : Time)
  | blockUser (u b : UserId) (now : Time)

/-- State acted on by the friend and block operations. -/
structure SocialState where
  reqs : List FriendRequest
  users : List User
deriving Repr, DecidableEq

/-- One step of the friend and block operations over the two
collections. -/
def friendStep (st : SocialState) : FriendOp → SocialState
  | FriendOp.sendRequest s r msg newId now =>
      match create_friend_request st.reqs s r msg newId now with
      | none => st
      | some r2 => { st with reqs := r2.2 }
  | FriendOp.acceptRequest rid uid now =>
      match accept_friend_request st.reqs st.users rid uid now with
      | none => st
      | some r2 => { reqs := r2.2.1, users := r2.2.2 }
  | FriendOp.addFriend u f now => { st with users := (add_friend st.users u f now).2 }
  | FriendOp.blockUser u b now => { st with users := (block_user st.users u b now).2 }

/-- Run of a sequence of friend and block operations. -/
def runFriendOps (st : SocialState) (ops : List FriendOp) : SocialState :=
  ops.foldl friendStep st

/-- The self-reference invariant of the spec: no user lists itself among
its friends or blocked users. -/
def UserSelfFree (users : List User) : Prop :=
  ∀ u ∈ users, u.id ∉ u.friends ∧ u.id ∉ u.blocked_users

/-- No stored request is a self-request. -/
def ReqsNoSelf (reqs : List FriendRequest) : Prop :=
  ∀ q ∈ reqs, q.sender_id ≠ q.receiver_id

/-- Combined invariant on the social state. -/
def SocialInv (st : SocialState) : Prop :=
  UserSelfFree st.users ∧ ReqsNoSelf st.reqs

/-- An operation is a self-call when it passes a user its own id. -/
def FriendOp.nonSelf : FriendOp → Bool
  | FriendOp.sendRequest s r _ _ _ => s != r
  | FriendOp.acceptRequest _ _ _ => true
  | FriendOp.addFriend u f _ => u != f
  | FriendOp.blockUser u b _ => u != b

/-- Counterexample for C7 as stated: the single operation addFriend(1, 1)
has no self-check in the repository and puts user 1 into its own friends
list. -/
theorem self_friend_counterexample :
    ¬ UserSelfFree (runFriendOps
      { reqs := [], users := [{ id := 1, updated_at := 0 }] }
      [FriendOp.addFriend 1 1 5]).users := by
  intro h
  have := h { id := 1, friends := [1], updated_at := 5 } (by decide)
  exact absurd (by decide) this.1

/-- Replacing one well-formed document keeps the self-free property of
the user store. -/
theorem saveUser_self_free (users : List User) (u2 : User)
    (h : UserSelfFree users)
    (h2 : u2.id ∉ u2.friends ∧ u2.id ∉ u2.blocked_users) :
    UserSelfFree (saveUser users u2) := by
  intro x hx
  unfold saveUser at hx
  obtain ⟨y, hymem, hyx⟩ := List.mem_map.mp hx
  by_cases hyid : (y.id == u2.id) = true
  · rw [← hyx, if_pos hyid]
    exact h2
  · rw [← hyx, if_neg hyid]
    exact h y hymem

/-- Replacing one non-self request keeps ReqsNoSelf. -/
theorem saveRequest_no_self (reqs : List FriendRequest) (q2 : FriendRequest)
    (h : ReqsNoSelf reqs) (h2 : q2.sender_id ≠ q2.receiver_id) :
    ReqsNoSelf (saveRequest reqs q2) := by
  intro x hx
  unfold saveRequest at hx
  obtain ⟨y, hymem, hyx⟩ := List.mem_map.mp hx
  by_cases hyid : (y.id == q2.id) = true
  · rw [← hyx, if_pos hyid]
    exact h2
  · rw [← hyx, if_neg hyid]
    exact h y hymem

/-- add_friend with distinct arguments keeps the self-free property. -/
theorem add_friend_self_free (users : List User) (uid fid : UserId) (now : Time)
    (hne : uid ≠ fid) (h : UserSelfFree users) :
    UserSelfFree (add_friend users uid fid now).2 := by
  cases hfind : getUserById users uid with
  | none =>
      have hred : (add_friend users uid fid now).2 = users := by
        simp [add_friend, hfind]
      rw [hred]
      exact h
  | some u =>
      by_cases hc : fid ∈ u.friends
      · have hred : (add_friend users uid fid now).2 = users := by
          simp [add_friend, hfind, hc]
        rw [hred]
        exact h
      · have hred : (add_friend users uid fid now).2
            = saveUser users (friendAdded u fid now) := by
          simp [add_friend, hfind, hc]
        rw [hred]
        apply saveUser_self_free users _ h
        have huid : u.id = uid := by
          have := List.find?_some hfind
          simpa using this
        have hu := h u (List.mem_of_find?_eq_some hfind)
        constructor
        · show u.id ∉ u.friends ++ [fid]
          rw [List.mem_append]
          rintro (hmem | hmem)
          · exact hu.1 hmem
          · rw [List.mem_singleton] at hmem
            rw [huid] at hmem
            exact hne hmem
        · show u.id ∉ u.blocked_users
          exact hu.2

/-- block_user with distinct arguments keeps the self-free property. -/
theorem block_user_self_free (users : List User) (uid bid : UserId) (now : Time)
    (hne : uid ≠ bid) (h : UserSelfFree users) :
    UserSelfFree (block_user users uid bid now).2 := by
  cases hfind : getUserById users uid with
  | none =>
      have hred : (block_user users uid bid now).2 = users := by
        simp [block_user, hfind]
      rw [hred]
      exact h
  | some u =>
      by_cases hc : bid ∈ u.blocked_users
      · have hred : (block_user users uid bid now).2 = users := by
          simp [block_user, hfind, hc]
        rw [hred]
        exact h
      · have hred : (block_user users uid bid now).2
            = saveUser users (blockApplied u bid now) := by
          simp [block_user, hfind, hc]
        rw [hred]
        apply saveUser_self_free users _ h
        have huid : u.id = uid := by
          have := List.find?_some hfind
          simpa using this
        have hu := h u (List.mem_of_find?_eq_some hfind)
        constructor
        · show u.id ∉ (if u.friends.contains bid then u.friends.erase bid else u.friends)
          by_cases hf : u.friends.contains bid = true
          · rw [if_pos hf]
            intro hmem
            exact hu.1 (List.mem_of_mem_erase hmem)
          · rw [if_neg hf]
            exact hu.1
        · show u.id ∉ u.blocked_users ++ [bid]
          rw [List.mem_append]
          rintro (hmem | hmem)
          · exact hu.2 hmem
          · rw [List.mem_singleton] at hmem
            rw [huid] at hmem
            exact hne hmem

/-- A successful create_friend_request with distinct users keeps
ReqsNoSelf. -/
theorem create_friend_request_no_self (reqs : List FriendRequest)
    (s r : UserId) (msg : Option String) (newId : RequestId) (now : Time)
    (hne : s ≠ r) (h : ReqsNoSelf reqs) :
    ∀ q2 reqs2, create_friend_request reqs s r msg newId now = some (q2, reqs2) →
      ReqsNoSelf reqs2 := by
  intro q2 reqs2 hc
  unfold create_friend_request at hc
  cases hex : get_existing_request reqs s r with
  | some q => rw [hex] at hc; exact absurd hc (by simp)
  | none =>
      rw [hex] at hc
      simp only [Option.some.injEq, Prod.mk.injEq] at hc
      obtain ⟨_, hr2⟩ := hc
      rw [← hr2]
      intro x hx
      rcases List.mem_append.mp hx with hmem | hmem
      · exact h x hmem
      · rw [List.mem_singleton] at hmem
        rw [hmem]
        exact hne

/-- A successful accept_friend_request keeps both halves of the social
invariant: the accepted request keeps its distinct endpoints and both
add_friend calls are non-self calls. -/
theorem accept_friend_request_inv (reqs : List FriendRequest)
    (users : List User) (rid : RequestId) (uid : UserId) (now : Time)
    (hU : UserSelfFree users) (hR : ReqsNoSelf reqs) :
    ∀ q2 reqs2 users2,
      accept_friend_request reqs users rid uid now = some (q2, reqs2, users2) →
      ReqsNoSelf reqs2 ∧ UserSelfFree users2 := by
  intro q2 reqs2 users2 hc
  unfold accept_friend_request at hc
  cases hfind : getRequestById reqs rid with
  | none => rw [hfind] at hc; exact absurd hc (by simp)
  | some q =>
      rw [hfind] at hc
      by_cases h1 : (q.receiver_id != uid) = true
      · simp [h1] at hc
      · by_cases h2 : (q.status != FriendRequestStatus.PENDING) = true
        · simp [h1, h2] at hc
        · simp only [h1, h2, Bool.false_eq_true, if_false, Option.some.injEq,
            Prod.mk.injEq] at hc
          obtain ⟨_, hr2, hu2⟩ := hc
          have hqne : q.sender_id ≠ q.receiver_id :=
            hR q (List.mem_of_find?_eq_some hfind)
          constructor
          · rw [← hr2]
            exact saveRequest_no_self reqs (acceptedRequest q now) hR hqne
          · rw [← hu2]
            exact add_friend_self_free _ q.receiver_id q.sender_id now
              (Ne.symm hqne)
              (add_friend_self_free users q.sender_id q.receiver_id now hqne hU)

/-- One non-self friend or block operation keeps the social invariant. -/
theorem friendStep_inv (st : SocialState) (op : FriendOp)
    (h : SocialInv st) (hop : op.nonSelf = true) :
    SocialInv (friendStep st op) := by
  cases op with
  | sendRequest s r msg newId now =>
      have hne : s ≠ r := by simpa [FriendOp.nonSelf] using hop
      cases hc : create_friend_request st.reqs s r msg newId now with
      | none =>
          have hred : friendStep st (FriendOp.sendRequest s r msg newId now) = st := by
            simp [friendStep, hc]
          rw [hred]
          exact h
      | some r2 =>
          have hred : friendStep st (FriendOp.sendRequest s r msg newId now)
              = { st with reqs := r2.2 } := by
            simp [friendStep, hc]
          rw [hred]
          exact ⟨h.1, create_friend_request_no_self st.reqs s r msg newId now
            hne h.2 r2.1 r2.2 (by rw [hc])⟩
  | acceptRequest rid uid now =>
      cases hc : accept_friend_request st.reqs st.users rid uid now with
      | none =>
          have hred : friendStep st (FriendOp.acceptRequest rid uid now) = st := by
            simp [friendStep, hc]
          rw [hred]
          exact h
      | some r2 =>
          have hred : friendStep st (FriendOp.acceptRequest rid uid now)
              = { reqs := r2.2.1, users := r2.2.2 } := by
            simp [friendStep, hc]
          rw [hred]
          obtain ⟨hr, hu⟩ := accept_friend_request_inv st.reqs st.users rid uid now
            h.1 h.2 r2.1 r2.2.1 r2.2.2 (by rw [hc])
          exact ⟨hu, hr⟩
  | addFriend u f now =>
      have hne : u ≠ f := by simpa [FriendOp.nonSelf] using hop
      have hred : friendStep st (FriendOp.addFriend u f now)
          = { st with users := (add_friend st.users u f now).2 } := by
        simp [friendStep]
      rw [hred]
      exact ⟨add_friend_self_free st.users u f now hne h.1, h.2⟩
  | blockUser u b now =>
      have hne : u ≠ b := by simpa [FriendOp.nonSelf] using hop
      have hred : friendStep st (FriendOp.blockUser u b now)
          = { st with users := (block_user st.users u b now).2 } := by
        simp [friendStep]
      rw [hred]
      exact ⟨block_user_self_free st.users u b now hne h.1, h.2⟩

/-- C7 amended: over every sequence of friend and block operations in
which no operation passes a user its own id (sender differs from
receiver in sendFriendRequest, user differs from friend in addFriend and
from blocked user in blockUser; acceptFriendRequest is unrestricted),
starting from a state where no user lists itself and no stored request
is a self-request, no user id ever appears in its own friends or
blocked_users set. -/
theorem social_ops_self_free (st : SocialState) (ops : List FriendOp)
    (h : SocialInv st) (hops : ∀ op ∈ ops, op.nonSelf = true) :
    SocialInv (runFriendOps st ops) := by
  induction ops generalizing st with
  | nil => exact h
  | cons op rest ih =>
      have h1 := friendStep_inv st op h (hops op (List.mem_cons_self op rest))
      have hrest : ∀ o ∈ rest, o.nonSelf = true :=
        fun o ho => hops o (List.mem_cons_of_mem op ho)
      unfold runFriendOps at ih ⊢
      rw [List.foldl_cons]
      exact ih (friendStep st op) h1 hrest

/-- Two-user start state for the C7 witness. -/
def socialStart : SocialState :=
  { reqs := [],
    users := [ { id := 1, updated_at := 0 }, { id := 2, updated_at := 0 } ] }

/-- Non-self operation sequence for the C7 witness: request, accept,
block. -/
def socialOps : List FriendOp :=
  [ FriendOp.sendRequest 1 2 none 11 0
  , FriendOp.acceptRequest 11 2 1
  , FriendOp.blockUser 1 2 2 ]

/-- Witness for C7 amended: after the non-self sequence request, accept,
block over two users, no user lists itself. -/
theorem social_ops_self_free_witness :
    SocialInv (runFriendOps socialStart socialOps) :=
  social_ops_self_free socialStart socialOps
    (by unfold SocialInv UserSelfFree ReqsNoSelf; exact ⟨by decide, by decide⟩)
    (by decide)

/-- One live Redis string entry: key, value and absolute expiry time
(setex semantics). -/
structure RedisEntry where
  key : String
  value : String
  expires_at : Time
deriving Repr, DecidableEq

/-- Ephemeral key/value store state: the live entries. -/
abbrev RedisStore := List RedisEntry

/-- Redis SETEX: overwrite any prior entry of the key with the value and
an expiry now + ttl. -/
def redis_setex (st : RedisStore) (k : String) (ttl : Time) (v : String)
    (now : Time) : RedisStore :=
  { key := k, value := v, expires_at := now + ttl } :: st.filter (fun e => e.key != k)

/-- Redis GET: the value of a live (non-expired) entry of the key, null
otherwise. -/
def redis_get (st : RedisStore) (k : String) (now : Time) : Option String :=
  (st.find? (fun e => e.key == k && decide (now < e.expires_at))).map (fun e => e.value)

/-- RedisManager.get_user_presence_key. -/
def get_user_presence_key (uid : UserId) : String :=
  "user:presence:" ++ toString uid

/-- RedisManager.set_user_presence: setex on the presence key. -/
def set_user_presence (st : RedisStore) (uid : UserId) (status : String)
    (expire_seconds : Time) (now : Time) : RedisStore :=
  redis_setex st (get_user_presence_key uid) expire_seconds status now

/-- RedisManager.get_user_presence: a bare redis get on the presence key;
the source returns the raw Optional value and never substitutes the
string "offline". -/
def get_user_presence (st : RedisStore) (uid : UserId) (now : Time) : Option String :=
  redis_get st (get_user_presence_key uid) now

/-- Counterexample for C8 as stated: on an empty store (the key never
existed) get_user_presence returns null, not the string "offline". -/
theorem get_user_presence_absent_counterexample :
    get_user_presence [] 5 0 = none
    ∧ get_user_presence [] 5 0 ≠ some "offline" := by
  exact ⟨rfl, by decide⟩

/-- C8 amended: get_user_presence returns the stored status string while
the presence key is live, and returns null - not the string "offline" -
whenever the key has expired or never existed; it never fails and never
returns any value other than a stored one.  Callers interpret the null
as offline. -/
theorem get_user_presence_spec (st : RedisStore) (uid : UserId)
    (status : String) (ttl now t : Time) :
    (get_user_presence (set_user_presence st uid status ttl now) uid t
      = if t < now + ttl then some status else none)
    ∧ ((∀ e ∈ st, e.key ≠ get_user_presence_key uid) →
        get_user_presence st uid t = none)
    ∧ (get_user_presence st uid t = none
        ∨ ∃ e ∈ st, e.key = get_user_presence_key uid
            ∧ get_user_presence st uid t = some e.value) := by
  refine ⟨?_, ?_, ?_⟩
  · unfold get_user_presence set_user_presence redis_setex redis_get
    by_cases hlive : t < now + ttl
    · rw [if_pos hlive]
      rw [List.find?_cons_of_pos _ (by simp [hlive])]
      rfl
    · rw [if_neg hlive]
      rw [List.find?_cons_of_neg _ (by simp [hlive])]
      have hnone : (st.filter (fun e => e.key != get_user_presence_key uid)).find?
          (fun e => e.key == get_user_presence_key uid && decide (t < e.expires_at))
          = none := by
        rw [List.find?_eq_none]
        intro e he
        have hk := (List.mem_filter.mp he).2
        simp only [Bool.and_eq_true, beq_iff_eq]
        rintro ⟨hkey, _⟩
        simp [hkey] at hk
      rw [hnone]
      rfl
  · intro hall
    unfold get_user_presence redis_get
    have hnone : st.find?
        (fun e => e.key == get_user_presence_key uid && decide (t < e.expires_at))
        = none := by
      rw [List.find?_eq_none]
      intro e he
      simp only [Bool.and_eq_true, beq_iff_eq]
      rintro ⟨hkey, _⟩
      exact hall e he hkey
    rw [hnone]
    rfl
  · unfold get_user_presence redis_get
    cases hfind : st.find?
        (fun e => e.key == get_user_presence_key uid && decide (t < e.expires_at)) with
    | none => exact Or.inl rfl
    | some e =>
        refine Or.inr ⟨e, List.mem_of_find?_eq_some hfind, ?_, rfl⟩
        have := List.find?_some hfind
        simp only [Bool.and_eq_true, beq_iff_eq] at this
        exact this.1

/-- Witness for C8 amended: a set presence is read back while live and
null after expiry, and the empty store yields null. -/
theorem get_user_presence_spec_witness :
    (get_user_presence (set_user_presence [] 5 "online" 10 0) 5 3
      = if (3 : Nat) < 0 + 10 then some "online" else none)
    ∧ get_user_presence [] 5 3 = none :=
  ⟨(get_user_presence_spec [] 5 "online" 10 0 3).1,
   (get_user_presence_spec [] 5 "online" 10 0 3).2.1 (by decide)⟩

end XChat
